import Mathlib

/-!
# Verification of the SimplifyIR query-intelligence pipeline

A shallow embedding of the Query Intelligence Engine of `src/server.js`
(class `ProductionQueryIntelligence` plus `productionSearchWithIntelligence`
and `basicSearch`), together with theorems settling the specification
claims about it.

Modelling conventions:
* JavaScript strings are Lean `String`s; `String.prototype.includes` is the
  substring test `jsIncludes`; `toLowerCase` is ASCII per-character
  lowercasing (`jsToLower`) — every pattern in the source is ASCII.
* JavaScript numbers that carry weights/confidences are modelled as `ℚ`
  (no arithmetic result in any claim depends on binary-float rounding);
  similarity scores are modelled as `Int` — only their ordering is used.
* Fallible external calls (`openai.embeddings.create`, `index.query`) are
  an explicit `Oracle` record whose methods return `Except JsError _`;
  a rejected promise / thrown error is the `.error` case.  Reading
  `.data[0].embedding` from a malformed embedding response is folded into
  the oracle's error case.
* A thrown JavaScript `TypeError` (reading a field of `undefined`) is an
  `Except.error`; functions that can throw return `Except JsError _`.
* JS object identity (`===` as used by `Array.prototype.includes`) is
  modelled by a `ref : Nat` field on `Match`: two distinct objects in a
  real run always carry distinct `ref`s, and structural equality of the
  model then coincides with reference equality.
* `new Date().getFullYear()` (read by `buildSecQuery`) is an explicit
  `currentYear : Nat` parameter.
-/

set_option linter.unusedVariables false

/-- `String.prototype.includes` on lists of characters: `needle` occurs as a
contiguous run inside `hay`. -/
def jsIncludesList (needle : List Char) : List Char → Bool
  | [] => needle.isEmpty
  | c :: rest => needle.isPrefixOf (c :: rest) || jsIncludesList needle rest

/-- `hay.includes(needle)` of JavaScript. -/
def jsIncludes (hay needle : String) : Bool :=
  jsIncludesList needle.toList hay.toList

/-- `String.prototype.toLowerCase`, restricted to ASCII (every pattern the
source matches against is ASCII). -/
def jsToLower (s : String) : String :=
  ⟨s.data.map Char.toLower⟩

/-- Splitting a character list at whitespace (models `split(/\s+/)` up to
empty tokens, which every consumer filters away by a length bound). -/
def splitWsAux : List Char → List Char → List (List Char)
  | [], acc => [acc.reverse]
  | c :: cs, acc =>
    if c.isWhitespace then acc.reverse :: splitWsAux cs [] else splitWsAux cs (c :: acc)

/-- `query.split(/\s+/)` — see `splitWsAux` for the empty-token caveat. -/
def jsSplitWs (s : String) : List String :=
  (splitWsAux s.data []).map (fun l => String.mk l)

/-- Does any of the alternatives occur as a substring?  Models a JS regex
match of an unanchored alternation of literals, e.g.
`queryLower.match(/(revenue|profit|...)/) !== null`. -/
def jsMatchAny (hay : String) (alts : List String) : Bool :=
  alts.any (fun a => jsIncludes hay a)

/-- A thrown JavaScript error (only its presence matters to the claims). -/
inductive JsError where
  | typeError (msg : String)
  | providerError (msg : String)
deriving DecidableEq

instance : Inhabited JsError := ⟨JsError.providerError "error"⟩

/-- `this.intentPatterns` of `ProductionQueryIntelligence`, in object
insertion order (= `Object.entries` order). -/
def intentPatterns : List (String × List String) :=
  [("managementCommentary",
    ["management said", "management discussed", "ceo said", "executives said",
     "leadership commented", "management commentary", "management perspective",
     "what did management", "according to management", "management stated"]),
   ("financialPerformance",
    ["earnings", "financial results", "quarterly results", "performance",
     "revenue", "profit", "income", "financial performance", "results"]),
   ("strategy",
    ["strategy", "strategic", "plans", "outlook", "guidance", "future",
     "direction", "priorities", "goals", "vision", "roadmap", "expansion"]),
   ("competitive",
    ["competitive", "competition", "market position", "advantages",
     "differentiation", "vs competitors", "market share", "positioning"]),
   ("risks",
    ["risks", "challenges", "concerns", "threats", "uncertainties",
     "headwinds", "obstacles", "difficulties", "problems"])]

/-- `this.timePeriods`, in object insertion order.  Note that the source
really does list the uppercase terms `'Q1'`…`'Q4'` and the capitalised
month phrases, although they are compared against a lower-cased query. -/
def timePeriods : List (String × List String) :=
  [("latest", ["latest", "most recent", "current", "this quarter", "this year"]),
   ("q1", ["Q1", "first quarter", "quarter 1", "three months ended March"]),
   ("q2", ["Q2", "second quarter", "quarter 2", "three months ended June"]),
   ("q3", ["Q3", "third quarter", "quarter 3", "three months ended September"]),
   ("q4", ["Q4", "fourth quarter", "quarter 4", "three months ended December"]),
   ("annual", ["annual", "yearly", "year ended", "full year", "fiscal year"])]

/-- The literal alternatives of the regex assigned to `analysis.isFinancial`. -/
def financialTerms : List String :=
  ["revenue", "profit", "income", "earnings", "financial", "results"]

/-- The literal alternatives of the regex assigned to `analysis.needsInternal`. -/
def internalTerms : List String :=
  ["management", "said", "commentary", "call", "presentation", "guidance"]

/-- The literal alternatives of the regex assigned to
`analysis.needsForwardLooking`. -/
def forwardTerms : List String :=
  ["guidance", "outlook", "future", "plans", "strategy", "goals"]

/-- The analysis object built by `analyzeQueryIntent`.  The three flag
fields hold `queryLower.match(...)` in the source — `null` or a match
array — and are used only for their truthiness, so they are modelled as
`Bool`. -/
structure Analysis where
  intents : List String
  timePeriod : Option String
  isFinancial : Bool
  needsInternal : Bool
  needsForwardLooking : Bool
  confidence : ℚ
deriving DecidableEq

/-- One iteration of the intent-detection loop of `analyzeQueryIntent`:
filter the category's patterns by substring match; if any matched, append
the intent name and add `matches.length * 0.1` to the confidence. -/
def detectIntentsStep (queryLower : String) (acc : List String × ℚ)
    (ip : String × List String) : List String × ℚ :=
  let ms := ip.2.filter (fun pattern => jsIncludes queryLower pattern)
  if ms.length > 0 then
    (acc.1 ++ [ip.1], acc.2 + (ms.length : ℚ) * (1 / 10))
  else acc

/-- The intent-detection loop of `analyzeQueryIntent`: fold over
`Object.entries(this.intentPatterns)`. -/
def detectIntents (queryLower : String) : List String × ℚ :=
  intentPatterns.foldl (detectIntentsStep queryLower) ([], 0)

/-- The time-period loop of `analyzeQueryIntent`: first bucket (in
declaration order) with a matching term wins; `break` after the first hit. -/
def detectTimePeriod (queryLower : String) : Option String :=
  (timePeriods.find? (fun pt => pt.2.any (fun term => jsIncludes queryLower term))).map
    (fun pt => pt.1)

/-- `analyzeQueryIntent(query)` of `ProductionQueryIntelligence`
(src/server.js).  Total: it only performs string matching. -/
def analyzeQueryIntent (query : String) : Analysis :=
  let queryLower := jsToLower query
  let d := detectIntents queryLower
  { intents := d.1
    timePeriod := detectTimePeriod queryLower
    isFinancial := jsMatchAny queryLower financialTerms
    needsInternal := jsMatchAny queryLower internalTerms
    needsForwardLooking := jsMatchAny queryLower forwardTerms
    confidence := d.2 }

/-- One search strategy generated by `generateSearchStrategies`. -/
structure Strategy where
  type : String
  query : String
  weight : ℚ
  sourceHint : Option String := none
deriving DecidableEq

/-- `buildSecQuery(query, analysis)`; `currentYear` models
`new Date().getFullYear()`. -/
def buildSecQuery (query : String) (analysis : Analysis) (currentYear : Nat) : String :=
  let base := jsToLower query
  if analysis.isFinancial && analysis.timePeriod.isSome then
    if analysis.timePeriod == some "latest" || analysis.timePeriod == some "q1" then
      "total revenue operating income three months ended March " ++ toString currentYear ++
        " consolidated statements"
    else
      base ++ " SEC filing 10-Q 10-K financial statements"
  else
    base ++ " SEC filing 10-Q 10-K financial statements"

/-- `buildInternalQuery(query, analysis)`. -/
def buildInternalQuery (query : String) (analysis : Analysis) : String :=
  let base := jsToLower query
  if analysis.intents.contains "managementCommentary" then
    "earnings call transcript management discussion commentary Q&A"
  else if analysis.needsForwardLooking then
    "earnings presentation guidance outlook management commentary"
  else
    base ++ " earnings call presentation management discussion"

/-- `buildMarketQuery(query, analysis)`. -/
def buildMarketQuery (query : String) (analysis : Analysis) : String :=
  let base := jsToLower query
  if analysis.intents.contains "competitive" then
    "competitive position market differentiation advantages strategy"
  else
    base ++ " market position strategy business model"

/-- The `intentMappings` lookup table of `buildIntentQuery`. -/
def intentMappings : List (String × String) :=
  [("managementCommentary", "management said discussed commentary earnings call"),
   ("financialPerformance", "revenue income earnings financial results performance"),
   ("strategy", "strategy strategic plans outlook guidance future direction"),
   ("competitive", "competitive advantages market position differentiation"),
   ("risks", "risk factors challenges concerns uncertainties")]

/-- `buildIntentQuery(query, intent, analysis)`: table lookup with the
verbatim question as fallback (`intentMappings[intent] || query`). -/
def buildIntentQuery (query : String) (intent : String) (analysis : Analysis) : String :=
  match intentMappings.find? (fun m => m.1 == intent) with
  | some m => m.2
  | none => query

/-- The stop-word list of `buildBroadQuery`. -/
def broadStopWords : List String :=
  ["what", "how", "when", "where", "does", "said", "the", "and", "for", "with"]

/-- `buildBroadQuery(query, analysis)`: lower-case, split on whitespace,
keep words longer than 3 characters that are not stop-words, take the
first 4, join with spaces.  JS `split(/\s+/)` differs from the character
split used here only by empty tokens, all of which fail `length > 3`. -/
def buildBroadQuery (query : String) (analysis : Analysis) : String :=
  let words := jsSplitWs (jsToLower query)
  let importantWords := words.filter
    (fun word => word.length > 3 && !(broadStopWords.contains word))
  String.intercalate " " (importantWords.take 4)

/-- The full strategy list built by `generateSearchStrategies` BEFORE the
final `slice(0, 6)`: the pushes of the source, in program order. -/
def strategiesList (originalQuery : String) (analysis : Analysis) (currentYear : Nat) :
    List Strategy :=
  [{ type := "original", query := originalQuery, weight := 1 }] ++
  (if analysis.isFinancial then
    [{ type := "sec-financial", query := buildSecQuery originalQuery analysis currentYear,
       weight := 8 / 10, sourceHint := some "sec" }]
   else []) ++
  (if analysis.needsInternal then
    [{ type := "internal-docs", query := buildInternalQuery originalQuery analysis,
       weight := 9 / 10, sourceHint := some "internal" }]
   else []) ++
  (if analysis.intents.contains "competitive" || analysis.intents.contains "strategy" then
    [{ type := "market-intelligence", query := buildMarketQuery originalQuery analysis,
       weight := 7 / 10, sourceHint := some "web" }]
   else []) ++
  (analysis.intents.map (fun intent =>
    { type := "intent-" ++ intent, query := buildIntentQuery originalQuery intent analysis,
      weight := 6 / 10 })) ++
  [{ type := "broad-fallback", query := buildBroadQuery originalQuery analysis,
     weight := 5 / 10 }]

/-- `generateSearchStrategies(originalQuery, analysis)`:
`strategies.slice(0, 6)`. -/
def generateSearchStrategies (originalQuery : String) (analysis : Analysis)
    (currentYear : Nat) : List Strategy :=
  (strategiesList originalQuery analysis currentYear).take 6

/-- The duck-typed metadata bag on a stored chunk; only the fields the
balancer reads are modelled, both optional. -/
structure Metadata where
  source : Option String := none
  sourceType : Option String := none
deriving DecidableEq

/-- A vector-store match.  `metadata` is `Option` because a response object
may lack it entirely (reading a field of it then throws).  `ref` models JS
object identity (see the header). -/
structure Match where
  id : String
  score : Option Int := none
  metadata : Option Metadata := none
  strategyType : Option String := none
  strategyWeight : Option ℚ := none
  sourceQuery : Option String := none
  ref : Nat := 0
deriving DecidableEq

/-- An embedding vector; its contents are opaque to the pipeline. -/
abbrev Vec := List Int

/-- The first positional argument of `PineconeREST.query`.  The executor
passes a plain vector; `basicSearch` passes a whole SDK-style options
object in the vector position (see `basicSearch` below). -/
inductive QueryArg where
  | vec (v : Vec)
  | obj (vector : Vec) (filter : Option String) (topK : Nat) (includeMetadata : Bool)
deriving DecidableEq

/-- A vector-store query response. -/
structure QueryResponse where
  «matches» : List Match
deriving DecidableEq

/-- The two external capabilities the pipeline calls.  `embed s` models
`(await openai.embeddings.create({model, input: s})).data[0].embedding`
(any rejection or malformed response is `.error`); `query arg topK filter`
models `index.query(arg, topK, filter)` on the `PineconeREST` wrapper,
whose signature is `query(vector, topK = 6, filter = {})` — the filter is
`none` when the JS call lets it default to `{}`, `some c` for
`{ company: c }`. -/
structure Oracle where
  embed : String → Except JsError Vec
  query : QueryArg → Nat → Option String → Except JsError QueryResponse

/-- The tagging the executor applies to each match of a strategy's
response (`match.strategyType = strategy.type; ...`); mutation in place
preserves object identity, hence `ref` is unchanged. -/
def tagMatch (strategy : Strategy) (m : Match) : Match :=
  { m with strategyType := some strategy.type,
           strategyWeight := some strategy.weight,
           sourceQuery := some strategy.query }

/-- The body of the executor's per-strategy `try` block: embed the
strategy's query, run `index.query(embedding, 4, { company })`, tag the
matches; any thrown error is caught and the strategy contributes `[]`. -/
def strategyMatches (o : Oracle) (strategy : Strategy) (company : String) : List Match :=
  match o.embed strategy.query with
  | .error _ => []
  | .ok emb =>
    match o.query (QueryArg.vec emb) 4 (some company) with
    | .error _ => []
    | .ok resp => resp.«matches».map (tagMatch strategy)

/-- `executeMultiSourceSearch(strategies, company)`: the `for` loop pushing
each strategy's (possibly empty) tagged matches onto `allResults`. -/
def executeMultiSourceSearch (o : Oracle) (strategies : List Strategy)
    (company : String) : List Match :=
  strategies.foldl (fun allResults strategy =>
    allResults ++ strategyMatches o strategy company) []

/-- Provenance buckets of `balanceSourceTypes`. -/
inductive Bucket where
  | sec
  | internal
  | web
  | other
deriving DecidableEq

/-- The `if/else` classification chain of `balanceSourceTypes`, for a match
whose metadata object is present (`md`): optional chaining makes an absent
`source`/`sourceType` simply fail each test. -/
def classifyMd (md : Metadata) : Bucket :=
  if (md.source.map (fun s => jsIncludes s "Filing")).getD false then .sec
  else if md.sourceType == some "internal-document" ||
          (md.source.map (fun s => jsIncludes s "Internal")).getD false then .internal
  else if (md.sourceType.map (fun s => jsIncludes s "web")).getD false then .web
  else .other

/-- Classification of a match; when `metadata` is absent the real code
throws before reaching here (see `balanceSourceTypes`), so the `.other`
default of that branch is never observed. -/
def classify (m : Match) : Bucket :=
  match m.metadata with
  | some md => classifyMd md
  | none => .other

/-- The bucket array `bySourceType.<b>` built by the grouping `forEach`. -/
def bucket (results : List Match) (b : Bucket) : List Match :=
  results.filter (fun r => classify r == b)

/-- The quota step of `balanceSourceTypes`: the three `balanced.push`
blocks selected on `analysis.needsInternal` / `analysis.isFinancial`. -/
def quotaPicks (results : List Match) (analysis : Analysis) : List Match :=
  if analysis.needsInternal then
    (bucket results .internal).take 3 ++ (bucket results .sec).take 2 ++
      (bucket results .web).take 1
  else if analysis.isFinancial then
    (bucket results .sec).take 3 ++ (bucket results .internal).take 2 ++
      (bucket results .web).take 1
  else
    (bucket results .internal).take 2 ++ (bucket results .sec).take 2 ++
      (bucket results .web).take 2

/-- The `allRemaining` list of the backfill step: each quota'd bucket minus
the prefix already selected (the source counts `balanced.filter(r =>
bucket.includes(r)).length` and slices it off), then the whole `other`
bucket. -/
def backfillCandidates (results : List Match) (analysis : Analysis) : List Match :=
  let balanced := quotaPicks results analysis
  (bucket results .sec).drop (balanced.countP (fun r => (bucket results .sec).contains r)) ++
  (bucket results .internal).drop
    (balanced.countP (fun r => (bucket results .internal).contains r)) ++
  (bucket results .web).drop (balanced.countP (fun r => (bucket results .web).contains r)) ++
  bucket results .other

/-- `b.score || 0` / `a.score || 0` of the final sort comparator. -/
def scoreOf (m : Match) : Int :=
  m.score.getD 0

/-- Deduplication by id, keeping the first occurrence:
`filter((result, index, self) => index === self.findIndex(r => r.id === result.id))`. -/
def dedupById : List Match → List Match :=
  go []
where
  go (seen : List String) : List Match → List Match
  | [] => []
  | m :: rest =>
    if seen.contains m.id then go seen rest
    else m :: go (m.id :: seen) rest

/-- The pure tail of `balanceSourceTypes`, applicable once the grouping
`forEach` is known not to throw: quota picks, backfill to 6, dedup by id,
`slice(0, 6)`, stable sort by score descending (`sort((a, b) =>
(b.score || 0) - (a.score || 0))`; JS `Array.prototype.sort` is stable,
and any stable sort by the same total preorder yields the same list —
`List.insertionSort` is used as the model).  The quota never exceeds
6 items (3+2+1 or 2+2+2), so the JS `remaining = 6 - length` is the
natural-number difference. -/
def balanceSourceTypesCore (results : List Match) (analysis : Analysis) : List Match :=
  let balanced := quotaPicks results analysis
  let remaining := 6 - balanced.length
  let balanced :=
    if 0 < remaining then balanced ++ (backfillCandidates results analysis).take remaining
    else balanced
  let unique := dedupById balanced
  (unique.take 6).insertionSort (fun a b => scoreOf b ≤ scoreOf a)

/-- `balanceSourceTypes(results, analysis)`.  The grouping `forEach` reads
`result.metadata.source` on every match, so the first match without a
metadata object throws a `TypeError`; otherwise the pure balancing runs. -/
def balanceSourceTypes (results : List Match) (analysis : Analysis) :
    Except JsError (List Match) :=
  if results.all (fun m => m.metadata.isSome) then
    .ok (balanceSourceTypesCore results analysis)
  else
    .error (JsError.typeError "Cannot read properties of undefined")

/-- The value resolved by `processQuery(originalQuery, company)`. -/
structure ProcessResult where
  originalQuery : String
  analysis : Analysis
  strategies : List String
  results : List Match
deriving DecidableEq

/-- `processQuery(originalQuery, company)` of `ProductionQueryIntelligence`:
analyze, generate strategies, execute, balance.  Only the balancing step
can throw (the executor catches all its errors), so the whole pipeline is
`Except`-valued through `balanceSourceTypes`. -/
def processQuery (o : Oracle) (currentYear : Nat) (originalQuery company : String) :
    Except JsError ProcessResult :=
  let analysis := analyzeQueryIntent originalQuery
  let searchStrategies := generateSearchStrategies originalQuery analysis currentYear
  let results := executeMultiSourceSearch o searchStrategies company
  match balanceSourceTypes results analysis with
  | .error e => .error e
  | .ok balancedResults =>
    .ok { originalQuery := originalQuery, analysis := analysis,
          strategies := searchStrategies.map (fun s => s.query),
          results := balancedResults }

/-- `basicSearch(question, company)`: embed the verbatim question, then
call `index.query({vector, filter, topK: 6, includeMetadata: true})` —
an SDK-style single-object call against the `PineconeREST` wrapper, whose
positional parameters `topK` and `filter` therefore take their defaults
`6` and `{}` (modelled `none`).  Every error is caught and `[]` returned. -/
def basicSearch (o : Oracle) (question company : String) : List Match :=
  match o.embed question with
  | .error _ => []
  | .ok emb =>
    match o.query (QueryArg.obj emb (some company) 6 true) 6 none with
    | .error _ => []
    | .ok resp => resp.«matches»

/-- Which branch of `productionSearchWithIntelligence` produced the
returned matches: the `try` body (pipeline) or the `catch` body
(basic-search fallback). -/
inductive SearchOutcome where
  | fromPipeline (results : List Match)
  | fromFallback (results : List Match)
deriving DecidableEq

/-- `productionSearchWithIntelligence(question, company)`: run the
pipeline; on a throw, fall back to `basicSearch`.  The success-path
logging reads `r.metadata.sourceType` of each balanced result, which
cannot throw because every balanced result passed classification. -/
def productionSearchWithIntelligence (o : Oracle) (currentYear : Nat)
    (question company : String) : SearchOutcome :=
  match processQuery o currentYear question company with
  | .ok result => .fromPipeline result.results
  | .error _ => .fromFallback (basicSearch o question company)

/-- The broad-fallback query as the spec words it (§4.2 step 6): lower-case
the question, split on whitespace, drop stop-words and words of length ≤ 3,
take the first 4 remaining tokens, join with spaces.  A second definition
following the spec's wording, to be compared with `buildBroadQuery`, which
is translated from the source. -/
def specBroadQuery (question : String) : String :=
  String.intercalate " "
    (((jsSplitWs (jsToLower question)).filter
      (fun w => !(broadStopWords.contains w) && !(w.length ≤ 3))).take 4)

/-- An oracle whose embedding and store calls always fail (every provider
call rejects). -/
def failOracle : Oracle where
  embed _ := .error default
  query _ _ _ := .error default

/-- Concrete strategies for exercising executor isolation. -/
def c6Strategy1 : Strategy := { type := "original", query := "alpha", weight := 1 }

/-- Second concrete strategy; its query is the one `c6Oracle` fails on. -/
def c6Strategy2 : Strategy :=
  { type := "sec-financial", query := "beta", weight := 8 / 10, sourceHint := some "sec" }

/-- Third concrete strategy. -/
def c6Strategy3 : Strategy := { type := "broad-fallback", query := "gamma", weight := 5 / 10 }

/-- An oracle that fails embedding exactly the query `"beta"` and answers
distinct matches for the other two embeddings. -/
def c6Oracle : Oracle where
  embed s :=
    if s = "beta" then .error default
    else if s = "alpha" then .ok [1] else .ok [2]
  query arg _ _ :=
    match arg with
    | .vec [1] =>
      .ok ⟨[{ id := "a1", score := some 90, metadata := some {}, ref := 1 }]⟩
    | .vec [2] =>
      .ok ⟨[{ id := "g1", score := some 80, metadata := some {}, ref := 2 }]⟩
    | _ => .ok ⟨[]⟩

/-- An analysis in which every conditional branch of the strategy
generator fires: all five intents detected, both flags set. -/
def c4Analysis : Analysis :=
  { intents := ["managementCommentary", "financialPerformance", "strategy",
      "competitive", "risks"],
    timePeriod := some "q1", isFinancial := true, needsInternal := true,
    needsForwardLooking := true, confidence := 5 / 10 }

/-- An analysis with `needsInternal` set (drives the internal-heavy quota
branch of the balancer). -/
def c3Analysis : Analysis :=
  { intents := [], timePeriod := none, isFinancial := false, needsInternal := true,
    needsForwardLooking := false, confidence := 0 }

/-- Ten concrete matches: 4 classified `sec`, 4 `internal`, 2 `web`, with
pairwise distinct ids, refs and scores. -/
def c3Results : List Match :=
  [{ id := "s1", score := some 95, metadata := some { source := some "SEC Filing 10-K" }, ref := 1 },
   { id := "s2", score := some 90, metadata := some { source := some "SEC Filing 10-Q" }, ref := 2 },
   { id := "s3", score := some 85, metadata := some { source := some "SEC Filing 8-K" }, ref := 3 },
   { id := "s4", score := some 80, metadata := some { source := some "SEC Filing S-1" }, ref := 4 },
   { id := "i1", score := some 93, metadata := some { sourceType := some "internal-document" }, ref := 5 },
   { id := "i2", score := some 88, metadata := some { sourceType := some "internal-document" }, ref := 6 },
   { id := "i3", score := some 83, metadata := some { sourceType := some "internal-document" }, ref := 7 },
   { id := "i4", score := some 78, metadata := some { sourceType := some "internal-document" }, ref := 8 },
   { id := "w1", score := some 91, metadata := some { sourceType := some "web-content" }, ref := 9 },
   { id := "w2", score := some 86, metadata := some { sourceType := some "web-content" }, ref := 10 }]

/-- The balanced output on `c3Results`/`c3Analysis`: the quota picks
(i1 i2 i3, s1 s2, w1) re-sorted by score descending. -/
def c3Expected : List Match :=
  [{ id := "s1", score := some 95, metadata := some { source := some "SEC Filing 10-K" }, ref := 1 },
   { id := "i1", score := some 93, metadata := some { sourceType := some "internal-document" }, ref := 5 },
   { id := "w1", score := some 91, metadata := some { sourceType := some "web-content" }, ref := 9 },
   { id := "s2", score := some 90, metadata := some { source := some "SEC Filing 10-Q" }, ref := 2 },
   { id := "i2", score := some 88, metadata := some { sourceType := some "internal-document" }, ref := 6 },
   { id := "i3", score := some 83, metadata := some { sourceType := some "internal-document" }, ref := 7 }]

/-- An analysis with all flags clear (drives the balanced 2/2/2 quota
branch). -/
def c10Analysis : Analysis :=
  { intents := [], timePeriod := none, isFinancial := false, needsInternal := false,
    needsForwardLooking := false, confidence := 0 }

/-- A two-element result list: one match classified `other` (its metadata
has neither a `Filing`/`Internal` source nor a matching `sourceType`) and
one `sec` match. -/
def c10Results : List Match :=
  [{ id := "o1", score := some 50, metadata := some { sourceType := some "external-research" },
     ref := 1 },
   { id := "s1", score := some 60, metadata := some { source := some "SEC Filing" }, ref := 2 }]

/-! ## Helper lemmas -/

theorem filter_length_pos_iff_any {α : Type} (p : α → Bool) (l : List α) :
    0 < (l.filter p).length ↔ l.any p = true := by
  rw [List.length_pos, Ne, List.filter_eq_nil_iff, List.any_eq_true]
  push_neg
  simp

theorem detectIntentsStep_eq_pos (ql : String) (acc : List String × ℚ)
    (ip : String × List String) (hc : ip.2.any (fun p => jsIncludes ql p) = true) :
    detectIntentsStep ql acc ip =
      (acc.1 ++ [ip.1],
       acc.2 + ((ip.2.filter (fun p => jsIncludes ql p)).length : ℚ) * (1 / 10)) := by
  unfold detectIntentsStep
  rw [if_pos ((filter_length_pos_iff_any _ _).2 hc)]

theorem detectIntentsStep_eq_neg (ql : String) (acc : List String × ℚ)
    (ip : String × List String) (hc : ip.2.any (fun p => jsIncludes ql p) = false) :
    detectIntentsStep ql acc ip = acc := by
  unfold detectIntentsStep
  rw [if_neg (fun hpos => by
    have hb := (filter_length_pos_iff_any (fun p => jsIncludes ql p) ip.2).1 hpos
    rw [hc] at hb
    exact Bool.noConfusion hb)]

theorem detectIntents_foldl_fst (ql : String) (l : List (String × List String))
    (acc : List String × ℚ) :
    (l.foldl (detectIntentsStep ql) acc).1 =
      acc.1 ++ (l.filter (fun ip => ip.2.any (fun p => jsIncludes ql p))).map Prod.fst := by
  induction l generalizing acc with
  | nil => simp
  | cons ip rest ih =>
    rw [List.foldl_cons, ih]
    by_cases hc : ip.2.any (fun p => jsIncludes ql p) = true
    · rw [detectIntentsStep_eq_pos ql acc ip hc]
      simp [List.filter_cons, hc]
    · rw [detectIntentsStep_eq_neg ql acc ip (Bool.eq_false_iff.2 hc)]
      simp [List.filter_cons, hc]

theorem detectIntents_foldl_no_match (ql : String) (l : List (String × List String))
    (acc : List String × ℚ)
    (h : ∀ ip ∈ l, ip.2.any (fun p => jsIncludes ql p) = false) :
    l.foldl (detectIntentsStep ql) acc = acc := by
  induction l generalizing acc with
  | nil => rfl
  | cons ip rest ih =>
    rw [List.foldl_cons, detectIntentsStep_eq_neg ql acc ip (h ip (List.mem_cons_self _ _))]
    exact ih acc (fun x hx => h x (List.mem_cons_of_mem _ hx))

/-- The detected intents are exactly the first components of the pattern
categories with at least one substring hit, in declaration order. -/
theorem analyzeQueryIntent_intents (query : String) :
    (analyzeQueryIntent query).intents =
      (intentPatterns.filter
        (fun ip => ip.2.any (fun p => jsIncludes (jsToLower query) p))).map Prod.fst := by
  unfold analyzeQueryIntent detectIntents
  simpa using detectIntents_foldl_fst (jsToLower query) intentPatterns ([], 0)


/-! ## Claim C1 -/

/-- C1: the claim (and spec §8) asserts that a question containing both
"Q1" and "fiscal year" resolves to time period "q1".  The code lower-cases
the question but compares it, case-sensitively, against the literal term
`'Q1'` of the q1 bucket — a term that therefore can never match — so the
annual bucket's `'fiscal year'` wins and `timePeriod` is `"annual"`.
This theorem evaluates the code at the failing input. -/
theorem c1_time_period_q1_fiscal_year :
    (analyzeQueryIntent "Q1 fiscal year").timePeriod = some "annual" := by decide

/-! ## Claim C7 -/

/-- C7: `analyzeQueryIntent` is total (it is a plain function in the
model — only string matching occurs), its intents list has no duplicates,
and every listed intent names a pattern category with at least one
substring hit in the lower-cased question. -/
theorem c7_intents_nodup_and_grounded (query : String) :
    (analyzeQueryIntent query).intents.Nodup ∧
    ∀ intent ∈ (analyzeQueryIntent query).intents,
      ∃ pats, (intent, pats) ∈ intentPatterns ∧
        ∃ p ∈ pats, jsIncludes (jsToLower query) p = true := by
  rw [analyzeQueryIntent_intents]
  constructor
  · have hkeys : (intentPatterns.map Prod.fst).Nodup := by decide
    exact hkeys.sublist (List.Sublist.map Prod.fst (List.filter_sublist _))
  · intro intent hmem
    rcases List.mem_map.1 hmem with ⟨ip, hip, hfst⟩
    rcases List.mem_filter.1 hip with ⟨hip', hany⟩
    rcases List.any_eq_true.1 hany with ⟨p, hp, hjs⟩
    exact ⟨ip.2, by rw [← hfst]; exact hip', p, hp, hjs⟩

/-- Witness for C7 at a concrete question. -/
theorem c7_witness :
    (analyzeQueryIntent "what did management say about risks").intents.Nodup ∧
    ∀ intent ∈ (analyzeQueryIntent "what did management say about risks").intents,
      ∃ pats, (intent, pats) ∈ intentPatterns ∧
        ∃ p ∈ pats,
          jsIncludes (jsToLower "what did management say about risks") p = true :=
  c7_intents_nodup_and_grounded "what did management say about risks"

/-! ## Claim C8 -/

theorem toLower_of_whitespace (c : Char) (h : c.isWhitespace = true) :
    Char.toLower c = c := by
  simp only [Char.isWhitespace, Bool.or_eq_true, decide_eq_true_eq] at h
  rcases h with ((rfl | rfl) | rfl) | rfl <;> decide

theorem jsIncludesList_eq_false_of_ws (needle hay : List Char)
    (hh : ∀ c ∈ hay, c.isWhitespace = true)
    (hn : ∃ c ∈ needle, c.isWhitespace = false) :
    jsIncludesList needle hay = false := by
  induction hay with
  | nil =>
    rcases hn with ⟨c, hc, _⟩
    have hne : needle ≠ [] := fun he => by simp [he] at hc
    simp [jsIncludesList, List.isEmpty_iff, hne]
  | cons a rest ih =>
    have hpre : needle.isPrefixOf (a :: rest) = false := by
      by_contra hb
      have hp : needle <+: a :: rest := by
        refine List.isPrefixOf_iff_prefix.1 ?_
        revert hb
        cases needle.isPrefixOf (a :: rest) <;> simp
      rcases hn with ⟨c, hc, hcw⟩
      rw [hh c (hp.subset hc)] at hcw
      exact Bool.noConfusion hcw
    simp only [jsIncludesList, hpre, Bool.false_or]
    exact ih (fun c hc => hh c (List.mem_cons_of_mem _ hc))

theorem jsIncludes_eq_false_of_ws (hay needle : String)
    (hh : ∀ c ∈ hay.data, c.isWhitespace = true)
    (hn : ∃ c ∈ needle.data, c.isWhitespace = false) :
    jsIncludes hay needle = false :=
  jsIncludesList_eq_false_of_ws needle.data hay.data hh hn

/-- C8: a whitespace-only (in particular empty) question yields the empty
analysis: no intents, no time period, all three flags false, confidence 0
— and no error is raised (the model is a total function). -/
theorem c8_whitespace_question_empty_analysis (query : String)
    (h : ∀ c ∈ query.data, c.isWhitespace = true) :
    analyzeQueryIntent query =
      { intents := [], timePeriod := none, isFinancial := false,
        needsInternal := false, needsForwardLooking := false, confidence := 0 } := by
  have hql : ∀ c ∈ (jsToLower query).data, c.isWhitespace = true := by
    intro c hc
    rcases List.mem_map.1 (by simpa [jsToLower] using hc) with ⟨c', hc', rfl⟩
    rw [toLower_of_whitespace c' (h c' hc')]
    exact h c' hc'
  have hfalse : ∀ p : String, p.data.any (fun c => !c.isWhitespace) = true →
      jsIncludes (jsToLower query) p = false := by
    intro p hp
    apply jsIncludes_eq_false_of_ws _ _ hql
    rcases List.any_eq_true.1 hp with ⟨c, hc, hcb⟩
    exact ⟨c, hc, by simpa using hcb⟩
  have hIntents : detectIntents (jsToLower query) = ([], 0) := by
    apply detectIntents_foldl_no_match
    intro ip hip
    rw [List.any_eq_false]
    intro p hp
    rw [hfalse p ?hnw]
    · simp
    case hnw =>
      have hall : intentPatterns.all
          (fun ip => ip.2.all (fun p => p.data.any (fun c => !c.isWhitespace))) = true := by
        decide
      exact List.all_eq_true.1 (List.all_eq_true.1 hall ip hip) p hp
  have hPeriod : detectTimePeriod (jsToLower query) = none := by
    unfold detectTimePeriod
    rw [List.find?_eq_none.2, Option.map_none']
    intro pt hpt
    have hAny : pt.2.any (fun term => jsIncludes (jsToLower query) term) = false := by
      rw [List.any_eq_false]
      intro t ht
      rw [hfalse t ?hnw2]
      · simp
      case hnw2 =>
        have hall : timePeriods.all
            (fun pt => pt.2.all (fun t => t.data.any (fun c => !c.isWhitespace))) = true := by
          decide
        exact List.all_eq_true.1 (List.all_eq_true.1 hall pt hpt) t ht
    simp [hAny]
  have hFlag : ∀ terms : List String,
      terms.all (fun t => t.data.any (fun c => !c.isWhitespace)) = true →
      jsMatchAny (jsToLower query) terms = false := by
    intro terms hterms
    rw [jsMatchAny, List.any_eq_false]
    intro t ht
    rw [hfalse t (List.all_eq_true.1 hterms t ht)]
    simp
  simp only [analyzeQueryIntent, hIntents, hPeriod, hFlag financialTerms (by decide),
    hFlag internalTerms (by decide), hFlag forwardTerms (by decide)]

/-- Witness for C8 at the two-space question. -/
theorem c8_witness :
    (∀ c ∈ ("  " : String).data, c.isWhitespace = true) ∧
    analyzeQueryIntent "  " =
      { intents := [], timePeriod := none, isFinancial := false,
        needsInternal := false, needsForwardLooking := false, confidence := 0 } :=
  ⟨by decide, c8_whitespace_question_empty_analysis "  " (by decide)⟩

/-! ## Claim C4 -/

/-- C4: the generator returns between 1 and 6 strategies, the first is
always the verbatim original question with weight 1.0, and the output is
the 6-entry prefix of the generation-order list (`slice(0, 6)`, no
re-sorting) — so when every branch and all five intents fire (pre-list of
length 10) the later strategies, including the broad fallback, are
dropped. -/
theorem c4_generator_shape (q : String) (a : Analysis) (y : Nat) :
    1 ≤ (generateSearchStrategies q a y).length ∧
    (generateSearchStrategies q a y).length ≤ 6 ∧
    (generateSearchStrategies q a y).head? =
      some { type := "original", query := q, weight := 1, sourceHint := none } ∧
    generateSearchStrategies q a y <+: strategiesList q a y ∧
    (a.intents = ["managementCommentary", "financialPerformance", "strategy",
        "competitive", "risks"] →
      a.isFinancial = true → a.needsInternal = true →
      (strategiesList q a y).length = 10 ∧
      (generateSearchStrategies q a y).map Strategy.type =
        ["original", "sec-financial", "internal-docs", "market-intelligence",
         "intent-managementCommentary", "intent-financialPerformance"] ∧
      ∀ s ∈ generateSearchStrategies q a y, s.type ≠ "broad-fallback") := by
  refine ⟨?_, ?_, ?_, ?_, ?_⟩
  · have hr : ∃ rest, strategiesList q a y =
        { type := "original", query := q, weight := 1, sourceHint := none } :: rest :=
      ⟨_, rfl⟩
    rcases hr with ⟨rest, hr⟩
    rw [generateSearchStrategies, hr]
    simp
  · rw [generateSearchStrategies, List.length_take]
    exact min_le_left _ _
  · rfl
  · exact List.take_prefix _ _
  · intro h1 h2 h3
    have hmap : (generateSearchStrategies q a y).map Strategy.type =
        ["original", "sec-financial", "internal-docs", "market-intelligence",
         "intent-managementCommentary", "intent-financialPerformance"] := by
      rw [generateSearchStrategies, List.map_take]
      unfold strategiesList
      rw [h1, h2, h3]
      simp
    refine ⟨?_, hmap, ?_⟩
    · simp [strategiesList, h1, h2, h3]
    · intro s hs heq
      have hin : s.type ∈ (generateSearchStrategies q a y).map Strategy.type :=
        List.mem_map_of_mem Strategy.type hs
      rw [hmap, heq] at hin
      revert hin
      decide

/-- Witness for C4 at a concrete question, year, and the all-branches-fire
analysis. -/
theorem c4_witness :
    1 ≤ (generateSearchStrategies "what did management say" c4Analysis 2025).length ∧
    (generateSearchStrategies "what did management say" c4Analysis 2025).length ≤ 6 ∧
    (generateSearchStrategies "what did management say" c4Analysis 2025).head? =
      some { type := "original", query := "what did management say", weight := 1,
             sourceHint := none } ∧
    generateSearchStrategies "what did management say" c4Analysis 2025 <+:
      strategiesList "what did management say" c4Analysis 2025 ∧
    (c4Analysis.intents = ["managementCommentary", "financialPerformance", "strategy",
        "competitive", "risks"] →
      c4Analysis.isFinancial = true → c4Analysis.needsInternal = true →
      (strategiesList "what did management say" c4Analysis 2025).length = 10 ∧
      (generateSearchStrategies "what did management say" c4Analysis 2025).map Strategy.type =
        ["original", "sec-financial", "internal-docs", "market-intelligence",
         "intent-managementCommentary", "intent-financialPerformance"] ∧
      ∀ s ∈ generateSearchStrategies "what did management say" c4Analysis 2025,
        s.type ≠ "broad-fallback") :=
  c4_generator_shape "what did management say" c4Analysis 2025

/-! ## Claim C9 -/

/-- C9: the broad-fallback strategy is always the last generation step
before truncation (the last entry of the pre-truncation list), carries
weight 0.5, and its query is exactly the spec's formula: lower-case,
split on whitespace, drop stop-words and words of length ≤ 3, take the
first 4 remaining tokens, join with single spaces (`specBroadQuery`). -/
theorem c9_broad_fallback_last_and_formula (q : String) (a : Analysis) (y : Nat) :
    (strategiesList q a y).getLast? =
      some { type := "broad-fallback", query := buildBroadQuery q a, weight := 5 / 10,
             sourceHint := none } ∧
    buildBroadQuery q a = specBroadQuery q := by
  constructor
  · unfold strategiesList
    exact List.getLast?_concat _
  · simp only [buildBroadQuery, specBroadQuery]
    congr 1
    congr 1
    apply List.filter_congr
    intro w hw
    cases hc : broadStopWords.contains w
    · simp only [hc, Bool.not_false, Bool.and_true, Bool.true_and]
      rw [← decide_not, decide_eq_decide]
      omega
    · simp [hc]

/-! ## Claim C5 -/

/-- C5 counterexample: `generateSearchStrategies` is NOT a pure function of
the question and analysis alone — `buildSecQuery` reads the current year
from the clock (`new Date().getFullYear()`).  With identical question and
analysis, a call in 2024 and a call in 2025 produce different sequences
(the sec-financial query embeds the year). -/
theorem c5_counterexample :
    ¬ (generateSearchStrategies "revenue first quarter"
         (analyzeQueryIntent "revenue first quarter") 2024 =
       generateSearchStrategies "revenue first quarter"
         (analyzeQueryIntent "revenue first quarter") 2025) :=
  fun h => absurd (congrArg (List.map Strategy.query) h) (by decide)

/-- C5 amended: `generateSearchStrategies` is a pure function of the
question, the analysis and the current year; the year can influence the
output only through the SEC-financial branch, so whenever
`analysis.isFinancial` is false, or the time period is neither `"latest"`
nor `"q1"`, two calls with identical question and analysis yield identical
sequences regardless of the clock. -/
theorem c5_pure_given_year (q : String) (a : Analysis) (y₁ y₂ : Nat)
    (h : a.isFinancial = false ∨
      (a.timePeriod ≠ some "latest" ∧ a.timePeriod ≠ some "q1")) :
    generateSearchStrategies q a y₁ = generateSearchStrategies q a y₂ := by
  have hb : a.isFinancial = true → buildSecQuery q a y₁ = buildSecQuery q a y₂ := by
    intro hf
    rcases h with h | ⟨h1, h2⟩
    · rw [hf] at h
      exact Bool.noConfusion h
    · have hcond : (a.timePeriod == some "latest" || a.timePeriod == some "q1") = false := by
        rw [Bool.or_eq_false_iff]
        constructor <;> rw [beq_eq_false_iff_ne] <;> assumption
      simp only [buildSecQuery, hcond, Bool.false_eq_true, if_false, ite_self]
  cases hf : a.isFinancial
  · simp [generateSearchStrategies, strategiesList, hf]
  · simp [generateSearchStrategies, strategiesList, hf, hb hf]

/-- Witness for C5 (amended) at a question with no financial flag. -/
theorem c5_witness :
    ((analyzeQueryIntent "risks").isFinancial = false ∨
      ((analyzeQueryIntent "risks").timePeriod ≠ some "latest" ∧
       (analyzeQueryIntent "risks").timePeriod ≠ some "q1")) ∧
    generateSearchStrategies "risks" (analyzeQueryIntent "risks") 2024 =
      generateSearchStrategies "risks" (analyzeQueryIntent "risks") 2025 :=
  ⟨Or.inl (by decide),
   c5_pure_given_year "risks" (analyzeQueryIntent "risks") 2024 2025 (Or.inl (by decide))⟩

/-! ## Claim C6 -/

theorem executor_foldl_flatten (o : Oracle) (company : String)
    (ss : List Strategy) (acc : List Match) :
    ss.foldl (fun allResults strategy => allResults ++ strategyMatches o strategy company)
        acc =
      acc ++ (ss.map (fun t => strategyMatches o t company)).flatten := by
  induction ss generalizing acc with
  | nil => simp
  | cons t rest ih =>
    rw [List.foldl_cons, ih]
    simp [List.append_assoc]

/-- C6: the executor processes each strategy independently.  For EVERY
list of strategies its result is the concatenation of the per-strategy
(tagged) match lists, so one strategy's failure never aborts the others or
the call (the model is a total function); a strategy whose embedding call
OR store-query call fails contributes zero matches; and in particular for
any three strategies of which the middle one fails, the executor returns
exactly the matches of strategies #1 and #3. -/
theorem c6_executor_isolation (o : Oracle) (strategies : List Strategy) (company : String)
    (s : Strategy)
    (hfail : (∃ e, o.embed s.query = Except.error e) ∨
      (∃ v e, o.embed s.query = Except.ok v ∧
        o.query (QueryArg.vec v) 4 (some company) = Except.error e)) :
    strategyMatches o s company = [] ∧
    executeMultiSourceSearch o strategies company =
      (strategies.map (fun t => strategyMatches o t company)).flatten ∧
    ∀ s1 s3 : Strategy,
      executeMultiSourceSearch o [s1, s, s3] company =
        strategyMatches o s1 company ++ strategyMatches o s3 company := by
  have hzero : strategyMatches o s company = [] := by
    unfold strategyMatches
    rcases hfail with ⟨e, he⟩ | ⟨v, e, hv, hq⟩
    · rw [he]
    · rw [hv]
      simp [hq]
  refine ⟨hzero, ?_, ?_⟩
  · rw [executeMultiSourceSearch, executor_foldl_flatten]
    simp
  · intro s1 s3
    rw [executeMultiSourceSearch, executor_foldl_flatten]
    simp [hzero]

/-- Witness for C6: a concrete oracle failing exactly strategy #2's
embedding call, on the concrete three-strategy list. -/
theorem c6_witness :
    ((∃ e, c6Oracle.embed c6Strategy2.query = Except.error e) ∨
      (∃ v e, c6Oracle.embed c6Strategy2.query = Except.ok v ∧
        c6Oracle.query (QueryArg.vec v) 4 (some "ACME") = Except.error e)) ∧
    (strategyMatches c6Oracle c6Strategy2 "ACME" = [] ∧
     executeMultiSourceSearch c6Oracle [c6Strategy1, c6Strategy2, c6Strategy3] "ACME" =
       ([c6Strategy1, c6Strategy2, c6Strategy3].map
         (fun t => strategyMatches c6Oracle t "ACME")).flatten ∧
     ∀ s1 s3 : Strategy,
       executeMultiSourceSearch c6Oracle [s1, c6Strategy2, s3] "ACME" =
         strategyMatches c6Oracle s1 "ACME" ++ strategyMatches c6Oracle s3 "ACME") :=
  ⟨Or.inl ⟨default, rfl⟩,
   c6_executor_isolation c6Oracle [c6Strategy1, c6Strategy2, c6Strategy3] "ACME" c6Strategy2
     (Or.inl ⟨default, rfl⟩)⟩

/-! ## Claim C2 -/

theorem balanceSourceTypes_nil (a : Analysis) : balanceSourceTypes [] a = .ok [] := by
  simp [balanceSourceTypes, balanceSourceTypesCore, quotaPicks, backfillCandidates, bucket,
    dedupById, dedupById.go]

/-- C2 counterexample: with an oracle on which every provider call fails
(so in particular every strategy's embedding fails), the pipeline returns
an empty PIPELINE result — the basic-search fallback is not invoked
(contradicting the claim that the caller falls back), and `basicSearch`
itself — whose calls all fail on this oracle — returns `[]` rather than
propagating an error (contradicting the claimed propagation). -/
theorem c2_counterexample :
    productionSearchWithIntelligence failOracle 2025 "What was revenue in Q3?" "DEMO" =
      SearchOutcome.fromPipeline [] ∧
    basicSearch failOracle "What was revenue in Q3?" "DEMO" = [] :=
  ⟨by decide, rfl⟩

/-- C2 amended: if every strategy's embedding or vector-store call fails,
the executor's aggregate is empty and the pipeline returns that empty
aggregate as a normal result — the basic-search fallback is NOT invoked
(it runs only when the pipeline itself throws), and a basic search whose
own calls fail returns an empty list, so no error propagates to the
caller from retrieval.  (When it does run, `basicSearch` embeds the
verbatim question but passes an SDK-style options object in the REST
wrapper's vector slot, so the wrapper-level `topK`/`filter` take their
defaults `6` and `{}`.) -/
theorem c2_all_fail_empty_no_fallback (o : Oracle) (y : Nat) (q c : String)
    (hstrat : ∀ s v, o.embed s = .ok v →
      ∀ k f, ∃ e, o.query (QueryArg.vec v) k f = .error e)
    (hbasic : ∀ v, o.embed q = .ok v →
      ∃ e, o.query (QueryArg.obj v (some c) 6 true) 6 none = .error e) :
    executeMultiSourceSearch o (generateSearchStrategies q (analyzeQueryIntent q) y) c = [] ∧
    productionSearchWithIntelligence o y q c = .fromPipeline [] ∧
    basicSearch o q c = [] := by
  have hsm : ∀ s : Strategy, strategyMatches o s c = [] := by
    intro s
    unfold strategyMatches
    cases he : o.embed s.query with
    | error e => rfl
    | ok v =>
      rcases hstrat s.query v he 4 (some c) with ⟨e, hq⟩
      simp [hq]
  have hexec : ∀ ss : List Strategy, executeMultiSourceSearch o ss c = [] := by
    intro ss
    unfold executeMultiSourceSearch
    induction ss with
    | nil => rfl
    | cons s rest ih =>
      rw [List.foldl_cons]
      simpa [hsm s] using ih
  refine ⟨hexec _, ?_, ?_⟩
  · simp only [productionSearchWithIntelligence, processQuery, hexec, balanceSourceTypes_nil]
  · unfold basicSearch
    cases he : o.embed q with
    | error e => rfl
    | ok v =>
      rcases hbasic v he with ⟨e, hq⟩
      simp [hq]

/-- Witness for C2 (amended) at the all-failing oracle. -/
theorem c2_witness :
    (∀ s v, failOracle.embed s = .ok v →
      ∀ k f, ∃ e, failOracle.query (QueryArg.vec v) k f = .error e) ∧
    (∀ v, failOracle.embed "revenue" = .ok v →
      ∃ e, failOracle.query (QueryArg.obj v (some "DEMO") 6 true) 6 none = .error e) ∧
    (executeMultiSourceSearch failOracle
        (generateSearchStrategies "revenue" (analyzeQueryIntent "revenue") 2025) "DEMO" = [] ∧
      productionSearchWithIntelligence failOracle 2025 "revenue" "DEMO" = .fromPipeline [] ∧
      basicSearch failOracle "revenue" "DEMO" = []) :=
  have hembed : ∀ s v, failOracle.embed s = .ok v → False := by
    intro s v h
    simp [failOracle] at h
  ⟨fun s v h _ _ => absurd h (fun hh => hembed s v hh),
   fun v h => absurd h (fun hh => hembed "revenue" v hh),
   c2_all_fail_empty_no_fallback failOracle 2025 "revenue" "DEMO"
     (fun s v h _ _ => absurd h (fun hh => hembed s v hh))
     (fun v h => absurd h (fun hh => hembed "revenue" v hh))⟩

/-! ## Claim C3 -/

theorem balanceSourceTypes_ok {results : List Match} {a : Analysis} {l : List Match}
    (h : balanceSourceTypes results a = .ok l) :
    l = balanceSourceTypesCore results a ∧ ∀ m ∈ results, m.metadata.isSome = true := by
  unfold balanceSourceTypes at h
  split at h
  · exact ⟨(Except.ok.inj h).symm, by
      rename_i hall
      exact fun m hm => List.all_eq_true.1 hall m hm⟩
  · exact Except.noConfusion h

theorem mem_bucket {results : List Match} {b : Bucket} {m : Match}
    (h : m ∈ bucket results b) : classify m = b ∧ m ∈ results := by
  rcases List.mem_filter.1 h with ⟨hm, hc⟩
  exact ⟨beq_iff_eq.1 hc, hm⟩

theorem dedupById_go_nodup (l : List Match) (seen : List String) :
    ((dedupById.go seen l).map Match.id).Nodup ∧
    ∀ i ∈ (dedupById.go seen l).map Match.id, i ∉ seen := by
  induction l generalizing seen with
  | nil => simp [dedupById.go]
  | cons m rest ih =>
    by_cases hm : seen.contains m.id
    · simp only [dedupById.go, if_pos hm]
      exact ih seen
    · simp only [dedupById.go, if_neg hm]
      obtain ⟨h1, h2⟩ := ih (m.id :: seen)
      refine ⟨?_, ?_⟩
      · simp only [List.map_cons, List.nodup_cons]
        exact ⟨fun hmem => (h2 _ hmem) (List.mem_cons_self _ _), h1⟩
      · intro i hi hiseen
        simp only [List.map_cons, List.mem_cons] at hi
        rcases hi with rfl | hi
        · exact hm (List.elem_iff.2 hiseen)
        · exact (h2 i hi) (List.mem_cons_of_mem _ hiseen)

theorem dedupById_go_subset (l : List Match) (seen : List String) :
    dedupById.go seen l ⊆ l := by
  induction l generalizing seen with
  | nil => simp [dedupById.go]
  | cons m rest ih =>
    by_cases hm : seen.contains m.id
    · simp only [dedupById.go, if_pos hm]
      exact (ih seen).trans (List.subset_cons_self _ _)
    · simp only [dedupById.go, if_neg hm]
      exact List.cons_subset_cons m (ih (m.id :: seen))

/-- C3: the balancer's output (whenever the classification pass does not
throw) has at most 6 entries, pairwise distinct ids, and is sorted by
score descending with a missing score read as 0; and under
`analysis.needsInternal` the quota step takes at most 3 internal, 2 sec
and 1 web match (backfill then tops the list up to at most 6). -/
theorem c3_balancer (results : List Match) (analysis : Analysis) (l : List Match)
    (h : balanceSourceTypes results analysis = .ok l) :
    l.length ≤ 6 ∧
    (l.map Match.id).Nodup ∧
    l.Pairwise (fun a b => scoreOf b ≤ scoreOf a) ∧
    (analysis.needsInternal = true →
      (quotaPicks results analysis).countP (fun m => classify m == Bucket.internal) ≤ 3 ∧
      (quotaPicks results analysis).countP (fun m => classify m == Bucket.sec) ≤ 2 ∧
      (quotaPicks results analysis).countP (fun m => classify m == Bucket.web) ≤ 1) := by
  obtain ⟨rfl, -⟩ := balanceSourceTypes_ok h
  have hr : ∀ a b : Match, (fun a b => scoreOf b ≤ scoreOf a) a b ∨
      (fun a b => scoreOf b ≤ scoreOf a) b a := fun a b => le_total (scoreOf b) (scoreOf a)
  refine ⟨?_, ?_, ?_, ?_⟩
  · rw [balanceSourceTypesCore,
      (List.perm_insertionSort _ _).length_eq, List.length_take]
    exact le_trans (min_le_left _ _) (le_refl 6)
  · have hperm := (List.perm_insertionSort
      (fun a b : Match => scoreOf b ≤ scoreOf a)
      ((dedupById (if 0 < 6 - (quotaPicks results analysis).length then
          quotaPicks results analysis ++
            (backfillCandidates results analysis).take (6 - (quotaPicks results analysis).length)
        else quotaPicks results analysis)).take 6)).map Match.id
    rw [balanceSourceTypesCore]
    refine hperm.nodup_iff.2 ?_
    rw [List.map_take]
    exact ((dedupById_go_nodup _ []).1).sublist
      (List.map_take _ _ _ ▸ (List.take_sublist _ _).map Match.id)
  · rw [balanceSourceTypesCore]
    haveI : IsTotal Match (fun a b => scoreOf b ≤ scoreOf a) := ⟨hr⟩
    haveI : IsTrans Match (fun a b => scoreOf b ≤ scoreOf a) :=
      ⟨fun a b c hab hbc => le_trans hbc hab⟩
    exact List.sorted_insertionSort _ _
  · intro hni
    have hq : quotaPicks results analysis =
        (bucket results .internal).take 3 ++ (bucket results .sec).take 2 ++
          (bucket results .web).take 1 := by
      rw [quotaPicks, if_pos hni]
    have hz : ∀ b b' : Bucket, b ≠ b' → ∀ k,
        ((bucket results b).take k).countP (fun m => classify m == b') = 0 := by
      intro b b' hne k
      rw [List.countP_eq_zero]
      intro m hm
      have := (mem_bucket ((List.take_subset _ _) hm)).1
      simp [this, hne]
    have hb : ∀ b : Bucket, ∀ k,
        ((bucket results b).take k).countP (fun m => classify m == b) ≤ k := by
      intro b k
      exact le_trans (List.countP_le_length _) (le_trans (List.length_take_le _ _) (le_refl k))
    rw [hq]
    refine ⟨?_, ?_, ?_⟩
    · rw [List.countP_append, List.countP_append,
        hz .sec .internal (by decide) 2, hz .web .internal (by decide) 1]
      simpa using hb .internal 3
    · rw [List.countP_append, List.countP_append,
        hz .internal .sec (by decide) 3, hz .web .sec (by decide) 1]
      simpa using hb .sec 2
    · rw [List.countP_append, List.countP_append,
        hz .internal .web (by decide) 3, hz .sec .web (by decide) 2]
      simpa using hb .web 1

/-- Witness for C3 at the 10-match scenario of the spec (4 sec, 4
internal, 2 web, `needsInternal` set): the output is the 6 quota picks
re-sorted by score descending. -/
theorem c3_witness :
    balanceSourceTypes c3Results c3Analysis = .ok c3Expected ∧
    (c3Expected.length ≤ 6 ∧
     (c3Expected.map Match.id).Nodup ∧
     c3Expected.Pairwise (fun a b => scoreOf b ≤ scoreOf a) ∧
     (c3Analysis.needsInternal = true →
       (quotaPicks c3Results c3Analysis).countP
         (fun m => classify m == Bucket.internal) ≤ 3 ∧
       (quotaPicks c3Results c3Analysis).countP (fun m => classify m == Bucket.sec) ≤ 2 ∧
       (quotaPicks c3Results c3Analysis).countP (fun m => classify m == Bucket.web) ≤ 1)) :=
  ⟨rfl, c3_balancer c3Results c3Analysis c3Expected rfl⟩

/-! ## Claim C10 -/

/-- C10: when every input match carries a metadata object, the balancer
does not throw (absent `source`/`sourceType` fields are handled by the
optional chaining); a match classified `other` is never selected by the
quota step of any analysis branch, the backfill candidate list puts the
`other` bucket after the sec/internal/web leftovers, and an `other` match
can only reach the output through the backfill take. -/
theorem c10_other_only_backfill (results : List Match) (analysis : Analysis)
    (h : ∀ m ∈ results, m.metadata.isSome = true) :
    (balanceSourceTypes results analysis).isOk = true ∧
    (∃ pre, backfillCandidates results analysis = pre ++ bucket results .other ∧
      ∀ x ∈ pre, classify x ≠ .other) ∧
    ∀ m ∈ results, classify m = .other →
      m ∉ quotaPicks results analysis ∧
      (∀ l, balanceSourceTypes results analysis = .ok l → m ∈ l →
        m ∈ (backfillCandidates results analysis).take
          (6 - (quotaPicks results analysis).length)) := by
  refine ⟨?_, ?_, ?_⟩
  · rw [balanceSourceTypes, if_pos (List.all_eq_true.2 h)]
    rfl
  · refine ⟨(bucket results .sec).drop
        ((quotaPicks results analysis).countP
          (fun r => (bucket results .sec).contains r)) ++
      (bucket results .internal).drop
        ((quotaPicks results analysis).countP
          (fun r => (bucket results .internal).contains r)) ++
      (bucket results .web).drop
        ((quotaPicks results analysis).countP
          (fun r => (bucket results .web).contains r)), ?_, ?_⟩
    · rw [backfillCandidates]
    · intro x hx
      rcases List.mem_append.1 hx with hx' | hx'
      · rcases List.mem_append.1 hx' with hx'' | hx''
        · rw [(mem_bucket (List.drop_subset _ _ hx'')).1]
          decide
        · rw [(mem_bucket (List.drop_subset _ _ hx'')).1]
          decide
      · rw [(mem_bucket (List.drop_subset _ _ hx')).1]
        decide
  · intro m hm hother
    have hnb : ∀ (b : Bucket) (k : Nat), b ≠ Bucket.other →
        m ∉ (bucket results b).take k := by
      intro b k hne hmem
      have hcb := (mem_bucket (List.take_subset _ _ hmem)).1
      rw [hother] at hcb
      exact hne hcb.symm
    have hnq : m ∉ quotaPicks results analysis := by
      intro hmem
      rw [quotaPicks] at hmem
      split at hmem
      · rcases List.mem_append.1 hmem with h' | h'
        · rcases List.mem_append.1 h' with h'' | h''
          · exact hnb _ _ (by decide) h''
          · exact hnb _ _ (by decide) h''
        · exact hnb _ _ (by decide) h'
      · split at hmem
        · rcases List.mem_append.1 hmem with h' | h'
          · rcases List.mem_append.1 h' with h'' | h''
            · exact hnb _ _ (by decide) h''
            · exact hnb _ _ (by decide) h''
          · exact hnb _ _ (by decide) h'
        · rcases List.mem_append.1 hmem with h' | h'
          · rcases List.mem_append.1 h' with h'' | h''
            · exact hnb _ _ (by decide) h''
            · exact hnb _ _ (by decide) h''
          · exact hnb _ _ (by decide) h'
    refine ⟨hnq, ?_⟩
    intro l hok hml
    obtain ⟨rfl, -⟩ := balanceSourceTypes_ok hok
    rw [balanceSourceTypesCore] at hml
    have hml2 := (List.perm_insertionSort
      (fun a b : Match => scoreOf b ≤ scoreOf a) _).mem_iff.1 hml
    have hml3 := dedupById_go_subset _ [] (List.take_subset _ _ hml2)
    by_cases hrem : 0 < 6 - (quotaPicks results analysis).length
    · rw [if_pos hrem] at hml3
      rcases List.mem_append.1 hml3 with h' | h'
      · exact absurd h' hnq
      · exact h'
    · rw [if_neg hrem] at hml3
      exact absurd hml3 hnq

/-- Witness for C10 at a two-match list containing one `other` match. -/
theorem c10_witness :
    (∀ m ∈ c10Results, m.metadata.isSome = true) ∧
    ((balanceSourceTypes c10Results c10Analysis).isOk = true ∧
     (∃ pre, backfillCandidates c10Results c10Analysis = pre ++ bucket c10Results .other ∧
       ∀ x ∈ pre, classify x ≠ .other) ∧
     ∀ m ∈ c10Results, classify m = .other →
       m ∉ quotaPicks c10Results c10Analysis ∧
       (∀ l, balanceSourceTypes c10Results c10Analysis = .ok l → m ∈ l →
         m ∈ (backfillCandidates c10Results c10Analysis).take
           (6 - (quotaPicks c10Results c10Analysis).length))) :=
  ⟨by decide, c10_other_only_backfill c10Results c10Analysis (by decide)⟩
